import Mathlib

/-!
Verification development for `subversion/svn/shelve-cmd.c`: the shelve /
unshelve / shelves command-level logic (argument-shape validation, listing
shelved changes sorted by modification time, "youngest shelf" name
resolution, and delegation to the external shelving store).

The embedding models the source file's functions over explicit data:
the external store (`svn_client_shelves_list` and friends) is a `Store`
value, machine strings are Lean `String`s manipulated through their
character lists (mirroring byte-level C string operations), and the
observable behaviour of a command is the pair of the list of emitted
`Event`s (external-store calls, printed lines) and an optional error.
-/

/-- Depth of a shelve operation, mirroring `svn_depth_t` (only the values
this file touches: `svn_depth_unknown` and `svn_depth_infinity` plus the
other user-settable depths, which are passed through). -/
inductive Depth
  | unknown
  | empty
  | files
  | immediates
  | infinity
deriving DecidableEq, Repr

/-- One shelved-change record, mirroring `svn_client_shelved_patch_info_t`:
the patch file's mtime (`apr_time_t`, microseconds), its size
(`dirent->filesize`), the log message and the patch file path. -/
structure PatchInfo where
  mtime : Int
  filesize : Int
  message : String
  patch_path : String
deriving DecidableEq, Repr

/-- The slice of `svn_cl__opt_state_t` that `shelve-cmd.c` reads. The
`targets_file` field models `opt_state->targets` (extra targets supplied
via `--targets`), merged into the positional remainder by
`svn_cl__args_to_target_array_print_reserved`. -/
structure OptState where
  quiet : Bool
  list : Bool
  remove : Bool
  dry_run : Bool
  keep_local : Bool
  depth : Depth
  changelists : List String
  targets_file : List String
deriving Repr

/-- The external shelving store's state: the unordered set of shelf
name-to-record pairs for the working-copy root (in the store's incidental
iteration order), plus whether each store operation succeeds when called. -/
structure Store where
  shelves : List (String × PatchInfo)
  listOk : Bool
  createOk : Bool
  deleteOk : Bool
  applyOk : Bool
deriving Repr

/-- Error classes surfaced by the commands: `argParsing` is
`SVN_ERR_CL_ARG_PARSING_ERROR`, `insufficientArgs` is
`SVN_ERR_CL_INSUFFICIENT_ARGS` with its optional message,
`notLocalPath` is the failure of `svn_cl__check_targets_are_local_paths`,
and `storeErr` is any error propagated from the external store. -/
inductive CmdErr
  | argParsing
  | insufficientArgs (msg : Option String)
  | notLocalPath
  | storeErr
deriving DecidableEq, Repr

/-- Observable events of one command invocation: calls into the external
store (with their arguments), unconditionally printed text (`out`),
text printed only when `--quiet` is unset (`confirm`), and the
diff-statistics block (the external `diffstat` invocation together with
its trailing blank line). -/
inductive Event
  | storeList
  | storeCreate (name : String) (targets : List String) (depth : Depth)
      (changelists : List String) (keepLocal : Bool) (dryRun : Bool)
  | storeDelete (name : String) (dryRun : Bool)
  | storeApply (name : String) (keepLocal : Bool) (dryRun : Bool)
  | out (s : String)
  | confirm (s : String)
  | diffstatBlock (path : String)
deriving DecidableEq, Repr

/-- Whether an event is a call into the external store. -/
def Event.isStore : Event → Bool
  | .storeList => true
  | .storeCreate _ _ _ _ _ _ => true
  | .storeDelete _ _ => true
  | .storeApply _ _ _ => true
  | _ => false

/-- Whether an event is output that the quiet option suppresses: a
confirmation line or the diff-statistics block. -/
def Event.isSuppressed : Event → Bool
  | .confirm _ => true
  | .diffstatBlock _ => true
  | _ => false

/-- C `strlen` on the embedded string (character count; the source slice
only manipulates the string as a byte sequence). -/
def strlen (s : String) : Nat := s.data.length

/-- APR `apr_pstrndup(pool, s, n)`: copy at most `n` characters of `s`; the
copy length is capped at the actual string length (APR uses `strnlen`). -/
def apr_pstrndup (s : String) (n : Nat) : String := ⟨s.data.take n⟩

/-- The length computation `strlen(key) - 6` from `name_of_youngest`,
performed on `size_t` (i.e. modulo `2^64`): when `n < 6` the subtraction
wraps around instead of underflowing below zero. -/
def stripLenU64 (n : Nat) : Nat := (n + (2 ^ 64 - 6)) % 2 ^ 64

/-- The suffix-stripping step of `name_of_youngest`:
`apr_pstrndup(pool, key, strlen(key) - 6)`, removing the trailing
`".patch"` of the stored key (unconditionally: there is no check that the
key ends in `".patch"` or is at least 6 characters long). -/
def stripDotPatch (key : String) : String :=
  apr_pstrndup key (stripLenU64 (strlen key))

/-- Comparator `compare_dirents_by_mtime`: three-way comparison of two shelf items by
their patch file's mtime (`-1` if the first is older, `1` if younger,
`0` on equal mtimes). -/
def compare_dirents_by_mtime (a b : String × PatchInfo) : Int :=
  if a.2.mtime < b.2.mtime then -1
  else if a.2.mtime > b.2.mtime then 1
  else 0

/-- The ordering induced by `compare_dirents_by_mtime`: item `a` sorts no
later than item `b`. -/
def shelfLE (a b : String × PatchInfo) : Prop :=
  compare_dirents_by_mtime a b ≤ 0

instance : DecidableRel shelfLE := fun a b =>
  inferInstanceAs (Decidable (compare_dirents_by_mtime a b ≤ 0))

instance : IsTotal (String × PatchInfo) shelfLE :=
  ⟨fun a b => by
    unfold shelfLE compare_dirents_by_mtime
    split_ifs <;> omega⟩

instance : IsTrans (String × PatchInfo) shelfLE :=
  ⟨fun a b c hab hbc => by
    unfold shelfLE compare_dirents_by_mtime at hab hbc ⊢
    split_ifs at hab hbc ⊢ <;> omega⟩

/-- Modelled from the spec: `svn_sort__hash` (from
`private/svn_sorts_private.h`, not part of this source slice) returns the
hash's items as an array sorted by the supplied comparison function; the
spec prescribes "a single explicit sort step keyed by `modifiedAt` ...
a stable sort over explicit `(name, record)` pairs", so it is modelled as
an insertion sort driven by `compare_dirents_by_mtime` over the store's
incidental iteration order. -/
def svn_sort__hash (l : List (String × PatchInfo)) : List (String × PatchInfo) :=
  List.insertionSort shelfLE l

/-- Store query `svn_client_shelves_list`, returning the, returning the
unordered shelf set for the root (or the store's error). -/
def svn_client_shelves_list (store : Store) :
    Except CmdErr (List (String × PatchInfo)) :=
  if store.listOk then .ok store.shelves else .error .storeErr

/-- Lister `list_sorted_by_date`: query the store and sort the shelved changes by
patch file mtime, oldest first. -/
def list_sorted_by_date (store : Store) :
    Except CmdErr (List (String × PatchInfo)) :=
  match svn_client_shelves_list store with
  | .error e => .error e
  | .ok infos => .ok (svn_sort__hash infos)

/-- Resolver `name_of_youngest`: find the name of the youngest shelved change.
Queries the store; an empty set is the `SVN_ERR_CL_INSUFFICIENT_ARGS`
error "No shelved changes found"; otherwise the last item of the
mtime-ascending sort is taken and its key is copied with
`strlen(key) - 6` characters (dropping the `'.patch'` suffix). The
`none` branch of the match is unreachable: the sort of a non-empty list
is non-empty. -/
def name_of_youngest (store : Store) : Except CmdErr String :=
  match svn_client_shelves_list store with
  | .error e => .error e
  | .ok shelves =>
    if shelves.isEmpty then
      .error (.insufficientArgs (some "No shelved changes found"))
    else
      match (svn_sort__hash shelves).getLast? with
      | some youngest => .ok (stripDotPatch youngest.1)
      | none => .error .storeErr

/-- Modelled from the spec: target validation ("Validate all targets are
local (not remote-URL) paths", §4.3); `svn_path_is_url` (outside this
slice) recognises URL targets by their scheme separator. -/
def svn_path_is_url (s : String) : Bool :=
  decide (("://".data).IsInfix s.data)

/-- Modelled from the spec: `svn_cl__args_to_target_array_print_reserved`
(outside this slice) gathers the remaining positional arguments together
with any `--targets` file contents into one target list; canonicalisation
and reserved-name rejection are out of this slice's scope. -/
def args_to_target_array (posargs : List String) (opt : OptState) : List String :=
  posargs ++ opt.targets_file

/-- Modelled from the spec: `svn_opt_push_implicit_dot_target` (from
`svn_opt.h`, outside this slice) appends the implicit current-directory
target when the target list is empty, and leaves a non-empty list
unchanged.  This is exactly the behaviour §4.3's "no implicit 'current
directory' default" rules out for the shelve command, yet
`svn_cl__shelve` calls it right before its empty-target check. -/
def svn_opt_push_implicit_dot_target (targets : List String) : List String :=
  if targets.isEmpty then [""] else targets

/-- Modelled from the spec: "Strip any revision-peg suffixes from target
specifications" (§4.3); drops everything from the last `'@'` on, if any. -/
def svn_opt_eat_peg_revision (s : String) : String :=
  if s.data.contains '@' then
    ⟨(((s.data.reverse.dropWhile (fun c => c ≠ '@')).drop 1).reverse)⟩
  else s

/-- One listing header line,
`printf("%-30s %6d mins old %10ld bytes\n", ...)`, with the age in
minutes computed as `(apr_time_now() - info->mtime) / 1000000 / 60`
(C truncating division); column padding is abstracted away. -/
def shelf_line (now : Int) (item : String × PatchInfo) : String :=
  item.1 ++ " " ++ toString (Int.tdiv (Int.tdiv (now - item.2.mtime) 1000000) 60)
    ++ " mins old " ++ toString item.2.filesize ++ " bytes\n"

/-- One listing message line, `printf(" %.50s\n", info->message)`:
the message truncated to 50 characters. -/
def shelf_msg (item : String × PatchInfo) : String :=
  " " ++ String.mk (item.2.message.data.take 50) ++ "\n"

/-- Display loop `shelves_list`: show the shelved changes sorted oldest first; for
each record print the header and message lines and, when `diffstat` is
set, run the external `diffstat` tool on the patch file (followed by a
blank line, folded here into the `diffstatBlock` event). -/
def shelves_list_run (store : Store) (diffstat : Bool) (now : Int) :
    List Event × Option CmdErr :=
  match list_sorted_by_date store with
  | .error e => ([.storeList], some e)
  | .ok l =>
    (Event.storeList ::
      l.flatMap (fun item =>
        [Event.out (shelf_line now item), Event.out (shelf_msg item)] ++
          (if diffstat then [Event.diffstatBlock item.2.patch_path] else [])),
      none)

/-- The create branch of `svn_cl__shelve` (after `get_name` consumed the
shelf name and `--remove` was not given): build the target list, push the
implicit dot target, fail with `SVN_ERR_CL_INSUFFICIENT_ARGS` when it is
empty, validate the targets are local, default an unknown depth to
infinity, strip peg revisions, and call `svn_client_shelve`; on success
print the confirmation unless quiet. -/
def shelve_create (name : String) (rest : List String) (opt : OptState)
    (store : Store) : List Event × Option CmdErr :=
  let targets0 := args_to_target_array rest opt
  let targets := svn_opt_push_implicit_dot_target targets0
  if targets.isEmpty then ([], some (.insufficientArgs none))
  else if targets.all (fun t => !svn_path_is_url t) then
    let depth := if opt.depth = Depth.unknown then Depth.infinity else opt.depth
    let targets2 := targets.map svn_opt_eat_peg_revision
    let ev := [Event.storeCreate name targets2 depth opt.changelists
                 opt.keep_local opt.dry_run]
    if store.createOk then
      (ev ++ (if opt.quiet then []
              else [Event.confirm ("shelved '" ++ name ++ "'\n")]), none)
    else (ev, some .storeErr)
  else ([], some .notLocalPath)

/-- Subcommand `svn_cl__shelve`: with `--list`, reject trailing arguments and list
the shelves (diff statistics unless quiet); otherwise consume exactly one
positional argument as the shelf name (`get_name`, failing with an
argument-parsing error when none is present); with `--remove`, reject
further arguments, call `svn_client_shelves_delete` and confirm unless
quiet; otherwise run the create branch.  The nulling of
`ctx->notify_func2` under quiet only silences store-side progress
notifications and has no observable effect in this slice. -/
def svn_cl__shelve (args : List String) (opt : OptState) (store : Store)
    (now : Int) : List Event × Option CmdErr :=
  if opt.list then
    if args.isEmpty then shelves_list_run store (!opt.quiet) now
    else ([], some .argParsing)
  else
    match args with
    | [] => ([], some .argParsing)
    | name :: rest =>
      if opt.remove then
        if rest.isEmpty then
          let ev := [Event.storeDelete name opt.dry_run]
          if store.deleteOk then
            (ev ++ (if opt.quiet then []
                    else [Event.confirm ("deleted '" ++ name ++ "'\n")]), none)
          else (ev, some .storeErr)
        else ([], some .argParsing)
      else shelve_create name rest opt store

/-- The apply step of `svn_cl__unshelve` (after the name is known): build
the remaining-target list, fail with an argument-parsing error when it is
non-empty, call `svn_client_unshelve` and confirm unless quiet. -/
def unshelve_apply (name : String) (rest : List String) (opt : OptState)
    (store : Store) : List Event × Option CmdErr :=
  let targets := args_to_target_array rest opt
  if targets.isEmpty then
    let ev := [Event.storeApply name opt.keep_local opt.dry_run]
    if store.applyOk then
      (ev ++ (if opt.quiet then []
              else [Event.confirm ("unshelved '" ++ name ++ "'\n")]), none)
    else (ev, some .storeErr)
  else ([], some .argParsing)

/-- Subcommand `svn_cl__unshelve`: with `--list`, reject trailing arguments and list
the shelves (diff statistics unless quiet); otherwise take the first
positional argument as the name, or resolve the youngest shelf (a store
query) and print the auto-selection notice with a plain, unconditional
`printf`; then apply. -/
def svn_cl__unshelve (args : List String) (opt : OptState) (store : Store)
    (now : Int) : List Event × Option CmdErr :=
  if opt.list then
    if args.isEmpty then shelves_list_run store (!opt.quiet) now
    else ([], some .argParsing)
  else
    match args with
    | name :: rest => unshelve_apply name rest opt store
    | [] =>
      match name_of_youngest store with
      | .error e => ([Event.storeList], some e)
      | .ok name =>
        let pre := [Event.storeList,
          Event.out ("unshelving the youngest change, '" ++ name ++ "'\n")]
        let r := unshelve_apply name [] opt store
        (pre ++ r.1, r.2)

/-- Subcommand `svn_cl__shelves`: reject any positional argument, then list the
shelves with diff statistics always enabled. -/
def svn_cl__shelves (args : List String) (store : Store) (now : Int) :
    List Event × Option CmdErr :=
  if args.isEmpty then shelves_list_run store true now
  else ([], some .argParsing)

/-- A sample shelved-change record (the older one). -/
def samplePatchA : PatchInfo :=
  { mtime := 100, filesize := 3, message := "fix a", patch_path := "pa" }

/-- A sample shelved-change record (the younger one). -/
def samplePatchB : PatchInfo :=
  { mtime := 200, filesize := 4, message := "fix b", patch_path := "pb" }

/-- A sample store holding two shelves, everything succeeding. -/
def sampleStore : Store :=
  { shelves := [("b.patch", samplePatchB), ("a.patch", samplePatchA)],
    listOk := true, createOk := true, deleteOk := true, applyOk := true }

/-- A sample store with an empty shelf set, everything succeeding. -/
def emptyStore : Store :=
  { shelves := [], listOk := true, createOk := true, deleteOk := true,
    applyOk := true }

/-- A store whose single shelf's bare name itself ends in ".patch", so the
stored key is "a.patch.patch". -/
def doubleSuffixStore : Store :=
  { shelves := [("a.patch.patch", samplePatchA)],
    listOk := true, createOk := true, deleteOk := true, applyOk := true }

/-- A store with the single stored key "foo.patch". -/
def fooStore : Store :=
  { shelves := [("foo.patch", samplePatchA)],
    listOk := true, createOk := true, deleteOk := true, applyOk := true }

/-- Options with every flag unset and no extra targets. -/
def plainOpt : OptState :=
  { quiet := false, list := false, remove := false, dry_run := false,
    keep_local := false, depth := Depth.unknown, changelists := [],
    targets_file := [] }

/-- Options with only the `--list` flag set. -/
def listOpt : OptState :=
  { plainOpt with list := true }

theorem shelfLE_iff (a b : String × PatchInfo) :
    shelfLE a b ↔ a.2.mtime ≤ b.2.mtime := by
  unfold shelfLE compare_dirents_by_mtime
  split_ifs <;> omega

theorem svn_sort__hash_pairwise (l : List (String × PatchInfo)) :
    List.Pairwise (fun a b => a.2.mtime ≤ b.2.mtime) (svn_sort__hash l) :=
  (List.sorted_insertionSort shelfLE l).imp fun h => (shelfLE_iff _ _).mp h

theorem svn_sort__hash_perm (l : List (String × PatchInfo)) :
    List.Perm (svn_sort__hash l) l :=
  List.perm_insertionSort shelfLE l

theorem mem_of_getLast?_eq_some {α : Type} :
    ∀ {l : List α} {m : α}, l.getLast? = some m → m ∈ l
  | [], _, h => by simp at h
  | [a], m, h => by
      simp only [List.getLast?_singleton, Option.some.injEq] at h
      simp [h]
  | _ :: b :: l, m, h => by
      rw [List.getLast?_cons_cons] at h
      exact List.mem_cons_of_mem _ (mem_of_getLast?_eq_some h)

theorem getLast?_eq_some_of_ne_nil {α : Type} :
    ∀ {l : List α}, l ≠ [] → ∃ m, l.getLast? = some m
  | [], h => absurd rfl h
  | [a], _ => ⟨a, by simp⟩
  | _ :: b :: l, _ => by
      rw [List.getLast?_cons_cons]
      exact getLast?_eq_some_of_ne_nil (List.cons_ne_nil b l)

theorem rel_getLast?_of_pairwise {α : Type} {R : α → α → Prop} :
    ∀ {l : List α} {m a : α}, List.Pairwise R l → l.getLast? = some m →
      a ∈ l → R a m ∨ a = m
  | [], _, _, _, h, _ => by simp at h
  | [b], m, a, _, h, ha => by
      simp only [List.getLast?_singleton, Option.some.injEq] at h
      simp only [List.mem_singleton] at ha
      right; rw [ha, h]
  | b :: c :: l, m, a, hp, h, ha => by
      rw [List.getLast?_cons_cons] at h
      rcases List.mem_cons.mp ha with rfl | ha'
      · exact Or.inl ((List.pairwise_cons.mp hp).1 m
          (mem_of_getLast?_eq_some h))
      · exact rel_getLast?_of_pairwise (List.pairwise_cons.mp hp).2 h ha'

theorem isEmpty_false_of_ne_nil {α : Type} {l : List α} (h : l ≠ []) :
    l.isEmpty = false := by
  cases l with
  | nil => exact absurd rfl h
  | cons a l => rfl

/-- Core behaviour of `name_of_youngest` on a non-empty set whose store
query succeeds: the result is the suffix-stripped key of the last item of
the mtime-ascending sort, and that item has the maximum mtime. -/
theorem youngest_spec (store : Store) (hok : store.listOk = true)
    (hne : store.shelves ≠ []) :
    ∃ item : String × PatchInfo,
      (svn_sort__hash store.shelves).getLast? = some item
      ∧ item ∈ store.shelves
      ∧ name_of_youngest store = Except.ok (stripDotPatch item.1)
      ∧ ∀ q ∈ store.shelves, q.2.mtime ≤ item.2.mtime := by
  have hperm := svn_sort__hash_perm store.shelves
  have hsne : svn_sort__hash store.shelves ≠ [] := by
    intro h0
    exact hne (List.length_eq_zero.mp (by rw [← hperm.length_eq, h0]; rfl))
  obtain ⟨item, hlast⟩ := getLast?_eq_some_of_ne_nil hsne
  refine ⟨item, hlast, hperm.subset (mem_of_getLast?_eq_some hlast), ?_, ?_⟩
  · simp [name_of_youngest, svn_client_shelves_list, hok,
      isEmpty_false_of_ne_nil hne, hlast]
  · intro q hq
    rcases rel_getLast?_of_pairwise (svn_sort__hash_pairwise store.shelves)
        hlast (hperm.mem_iff.mpr hq) with h | h
    · exact h
    · rw [h]

/-- C2: for every non-empty shelf set (with the store query succeeding),
`name_of_youngest` returns the (suffix-stripped) key of the last element
of the mtime-ascending sort, and that element's record has the maximum
`modifiedAt` among all records in the set. -/
theorem name_of_youngest_returns_max_mtime (store : Store)
    (hok : store.listOk = true) (hne : store.shelves ≠ []) :
    ∃ item : String × PatchInfo,
      (svn_sort__hash store.shelves).getLast? = some item
      ∧ item ∈ store.shelves
      ∧ name_of_youngest store = Except.ok (stripDotPatch item.1)
      ∧ ∀ q ∈ store.shelves, q.2.mtime ≤ item.2.mtime :=
  youngest_spec store hok hne

/-- C2 witness: on the concrete two-shelf store, the youngest item is
`("b.patch", samplePatchB)` and every record's mtime is bounded by its. -/
theorem name_of_youngest_returns_max_mtime_witness :
    sampleStore.listOk = true ∧ sampleStore.shelves ≠ []
    ∧ ∃ item : String × PatchInfo,
        (svn_sort__hash sampleStore.shelves).getLast? = some item
        ∧ item ∈ sampleStore.shelves
        ∧ name_of_youngest sampleStore = Except.ok (stripDotPatch item.1)
        ∧ ∀ q ∈ sampleStore.shelves, q.2.mtime ≤ item.2.mtime :=
  ⟨rfl, by simp [sampleStore],
    name_of_youngest_returns_max_mtime sampleStore rfl (by simp [sampleStore])⟩

theorem data_append (s t : String) : (s ++ t).data = s.data ++ t.data := by
  cases s; cases t; rfl

/-- C3 counterexample: the claim "the returned name never contains the
on-disk artifact suffix" fails when the bare shelf name itself ends in
".patch": for the stored key "a.patch.patch" the resolver returns
"a.patch", which still carries the ".patch" suffix. -/
theorem name_of_youngest_suffix_counterexample :
    name_of_youngest doubleSuffixStore = Except.ok "a.patch"
    ∧ (".patch".data).IsSuffix ("a.patch".data) :=
  ⟨rfl, ⟨"a".data, rfl⟩⟩

/-- C3 amended: the resolver strips exactly the fixed-length six-character
".patch" suffix from the youngest stored key before returning it (so the
stored key "foo.patch" yields "foo"); the returned name is free of the
suffix whenever the bare name itself is, but not in general. -/
theorem name_of_youngest_strips_fixed_suffix (store : Store) (bare : String)
    (info : PatchInfo) (hok : store.listOk = true)
    (hlen : strlen bare + 6 < 2 ^ 64)
    (hlast : (svn_sort__hash store.shelves).getLast?
        = some (bare ++ ".patch", info)) :
    name_of_youngest store = Except.ok bare := by
  have hne : store.shelves ≠ [] := by
    intro h0
    rw [h0] at hlast
    simp [svn_sort__hash] at hlast
  obtain ⟨item, hlast', _, hmain, _⟩ := youngest_spec store hok hne
  have he : item = (bare ++ ".patch", info) :=
    Option.some.inj (hlast'.symm.trans hlast)
  rw [hmain, he]
  have hstrip : stripDotPatch (bare ++ ".patch") = bare := by
    unfold stripDotPatch apr_pstrndup strlen
    rw [data_append]
    have hlen2 : (bare.data ++ ".patch".data).length = bare.data.length + 6 := by
      rw [List.length_append]; rfl
    rw [hlen2]
    have hsl : stripLenU64 (bare.data.length + 6) = bare.data.length := by
      unfold stripLenU64
      have h64 : (2 : Nat) ^ 64 = 18446744073709551616 := by norm_num
      unfold strlen at hlen
      rw [h64] at hlen ⊢
      omega
    rw [hsl, List.take_left]
  rw [hstrip]

/-- C3 amended-claim witness: on a store whose single key is
"foo" ++ ".patch", the resolver returns "foo". -/
theorem name_of_youngest_strips_fixed_suffix_witness :
    fooStore.listOk = true
    ∧ strlen "foo" + 6 < 2 ^ 64
    ∧ (svn_sort__hash fooStore.shelves).getLast?
        = some ("foo" ++ ".patch", samplePatchA)
    ∧ name_of_youngest fooStore = Except.ok "foo" :=
  ⟨rfl, by decide, rfl,
    name_of_youngest_strips_fixed_suffix fooStore "foo" samplePatchA rfl
      (by decide) rfl⟩

/-- C4: when the store query succeeds, `name_of_youngest` fails with the
`SVN_ERR_CL_INSUFFICIENT_ARGS` condition carrying the message
"No shelved changes found" exactly when the shelf set is empty (and in
that case returns no name). -/
theorem name_of_youngest_empty_error_iff (store : Store)
    (hok : store.listOk = true) :
    (name_of_youngest store
        = Except.error (CmdErr.insufficientArgs
            (some "No shelved changes found")))
      ↔ store.shelves = [] := by
  constructor
  · intro h
    by_contra hne
    obtain ⟨item, _, _, hmain, _⟩ := youngest_spec store hok hne
    rw [hmain] at h
    exact Except.noConfusion h
  · intro h
    simp [name_of_youngest, svn_client_shelves_list, hok, h]

/-- C4 witness: the empty store triggers the error, the two-shelf store
does not. -/
theorem name_of_youngest_empty_error_iff_witness :
    emptyStore.listOk = true
    ∧ (name_of_youngest emptyStore
        = Except.error (CmdErr.insufficientArgs
            (some "No shelved changes found"))
      ↔ emptyStore.shelves = []) :=
  ⟨rfl, name_of_youngest_empty_error_iff emptyStore rfl⟩

/-- C5: `compare_dirents_by_mtime` orders by `modifiedAt` alone (negative
exactly on strictly-smaller mtime, zero exactly on equal mtimes), and
every sequence successfully produced by `list_sorted_by_date` has
non-decreasing mtimes from first to last. -/
theorem list_sorted_by_date_nondecreasing :
    (∀ a b : String × PatchInfo,
        (compare_dirents_by_mtime a b < 0 ↔ a.2.mtime < b.2.mtime)
      ∧ (compare_dirents_by_mtime a b = 0 ↔ a.2.mtime = b.2.mtime))
  ∧ ∀ (store : Store) (l : List (String × PatchInfo)),
      list_sorted_by_date store = Except.ok l →
      List.Pairwise (fun a b => a.2.mtime ≤ b.2.mtime) l := by
  constructor
  · intro a b
    unfold compare_dirents_by_mtime
    split_ifs <;>
      refine ⟨⟨fun hh => ?_, fun hh => ?_⟩, ⟨fun hh => ?_, fun hh => ?_⟩⟩ <;>
      first
        | omega
        | exact absurd hh (by omega)
        | exact hh.elim
  · intro store l h
    unfold list_sorted_by_date svn_client_shelves_list at h
    by_cases hok : store.listOk
    · simp only [hok, if_true] at h
      injection h with h
      rw [← h]
      exact svn_sort__hash_pairwise _
    · simp [hok] at h

/-- C5 witness: the two-shelf store lists as `a.patch` (mtime 100) before
`b.patch` (mtime 200), a non-decreasing sequence. -/
theorem list_sorted_by_date_nondecreasing_witness :
    list_sorted_by_date sampleStore
      = Except.ok [("a.patch", samplePatchA), ("b.patch", samplePatchB)]
    ∧ List.Pairwise (fun a b => a.2.mtime ≤ b.2.mtime)
        [("a.patch", samplePatchA), ("b.patch", samplePatchB)] :=
  ⟨rfl, list_sorted_by_date_nondecreasing.2 sampleStore _ rfl⟩

/-- C6: the `strlen(key) - 6` length computation is performed on `size_t`
and wraps below 6 (for a youngest key shorter than six characters it
yields a value larger than the key length instead of a valid prefix
length); for any key of length at least six the last six characters are
removed with no check that the key ends in ".patch"; and
`name_of_youngest` applies this strip to the youngest key
unconditionally. -/
theorem name_of_youngest_strip_underflow :
    (∀ n : Nat, n < 6 → stripLenU64 n = n + (2 ^ 64 - 6) ∧ n < stripLenU64 n)
  ∧ (∀ n : Nat, 6 ≤ n → n < 2 ^ 64 → stripLenU64 n = n - 6)
  ∧ (∀ key : String, 6 ≤ strlen key → strlen key < 2 ^ 64 →
      strlen (stripDotPatch key) = strlen key - 6)
  ∧ ∀ (store : Store) (item : String × PatchInfo), store.listOk = true →
      (svn_sort__hash store.shelves).getLast? = some item →
      name_of_youngest store = Except.ok (stripDotPatch item.1) := by
  have h64 : (2 : Nat) ^ 64 = 18446744073709551616 := by norm_num
  have hsub : ∀ n : Nat, 6 ≤ n → n < 2 ^ 64 → stripLenU64 n = n - 6 := by
    intro n h6 hlt
    unfold stripLenU64
    rw [h64] at hlt ⊢
    omega
  refine ⟨?_, hsub, ?_, ?_⟩
  · intro n hn
    constructor <;> (unfold stripLenU64; rw [h64]; omega)
  · intro key h6 hlt
    unfold strlen at h6 hlt
    have hs := hsub key.data.length h6 hlt
    unfold stripDotPatch apr_pstrndup strlen
    rw [hs, List.length_take]
    omega
  · intro store item hok hlast
    have hne : store.shelves ≠ [] := by
      intro h0
      rw [h0] at hlast
      simp [svn_sort__hash] at hlast
    obtain ⟨item', hlast', _, hmain, _⟩ := youngest_spec store hok hne
    have he : item' = item := Option.some.inj (hlast'.symm.trans hlast)
    rw [hmain, he]

/-- C6 witness: a length-3 key wraps (the computed prefix length exceeds
the key length); the 8-character key "abcdefgh", which does not end in
".patch", still loses its last six characters; and the strip is applied
to the concrete youngest key of `doubleSuffixStore`. -/
theorem name_of_youngest_strip_underflow_witness :
    (3 < 6 ∧ stripLenU64 3 = 3 + (2 ^ 64 - 6) ∧ 3 < stripLenU64 3)
    ∧ (6 ≤ strlen "abcdefgh" ∧ strlen "abcdefgh" < 2 ^ 64
        ∧ strlen (stripDotPatch "abcdefgh") = strlen "abcdefgh" - 6)
    ∧ (doubleSuffixStore.listOk = true
        ∧ (svn_sort__hash doubleSuffixStore.shelves).getLast?
            = some ("a.patch.patch", samplePatchA)
        ∧ name_of_youngest doubleSuffixStore
            = Except.ok (stripDotPatch "a.patch.patch")) :=
  ⟨⟨by norm_num, name_of_youngest_strip_underflow.1 3 (by norm_num)⟩,
    ⟨by decide, by decide,
      name_of_youngest_strip_underflow.2.2.1 "abcdefgh" (by decide) (by decide)⟩,
    ⟨rfl, rfl,
      name_of_youngest_strip_underflow.2.2.2 doubleSuffixStore
        ("a.patch.patch", samplePatchA) rfl rfl⟩⟩

/-- C1 is violated by the code: `shelve myfix` with zero target paths and
no `--list`/`--remove` does not fail with the insufficient-arguments
error and does call the store.  `svn_cl__shelve` calls
`svn_opt_push_implicit_dot_target` immediately before its own
"shelve has no implicit dot-target" guard, so the guard never fires:
the implicit current-directory target is inserted and
`svn_client_shelve` runs on it, succeeding. -/
theorem shelve_zero_targets_calls_store :
    svn_cl__shelve ["myfix"] plainOpt sampleStore 0
      = ([Event.storeCreate "myfix" [""] Depth.infinity [] false false,
          Event.confirm "shelved 'myfix'\n"], none)
    ∧ (svn_cl__shelve ["myfix"] plainOpt sampleStore 0).2
        ≠ some (CmdErr.insufficientArgs none) :=
  ⟨rfl, by decide⟩

/-- C7: `shelve --list` with any trailing positional argument fails with
the argument-parsing error and emits no events at all; in particular the
store is never queried. -/
theorem shelve_list_trailing_args_error (args : List String) (opt : OptState)
    (store : Store) (now : Int) (hl : opt.list = true) (hne : args ≠ []) :
    svn_cl__shelve args opt store now = ([], some CmdErr.argParsing) := by
  simp [svn_cl__shelve, hl, isEmpty_false_of_ne_nil hne]

/-- C7 witness: `shelve --list x` on the two-shelf store. -/
theorem shelve_list_trailing_args_error_witness :
    listOpt.list = true ∧ (["x"] : List String) ≠ []
    ∧ svn_cl__shelve ["x"] listOpt sampleStore 0
        = ([], some CmdErr.argParsing) :=
  ⟨rfl, by simp,
    shelve_list_trailing_args_error ["x"] listOpt sampleStore 0 rfl (by simp)⟩

/-- C8: `unshelve` without `--list`, given an explicit shelf name and at
least one trailing positional argument, fails with the argument-parsing
error and emits no events; in particular `svn_client_unshelve` is never
called. -/
theorem unshelve_trailing_args_error (name a : String) (rest : List String)
    (opt : OptState) (store : Store) (now : Int) (hl : opt.list = false) :
    svn_cl__unshelve (name :: a :: rest) opt store now
      = ([], some CmdErr.argParsing) := by
  simp [svn_cl__unshelve, hl, unshelve_apply, args_to_target_array]

/-- C8 witness: `unshelve x y` on the two-shelf store. -/
theorem unshelve_trailing_args_error_witness :
    plainOpt.list = false
    ∧ svn_cl__unshelve ["x", "y"] plainOpt sampleStore 0
        = ([], some CmdErr.argParsing) :=
  ⟨rfl, unshelve_trailing_args_error "x" "y" [] plainOpt sampleStore 0 rfl⟩

/-- C10: when `unshelve` auto-selects the youngest shelf, the
"unshelving the youngest change" notice is printed even under `--quiet`
(it is a plain unconditional `printf`), while no confirmation line is
printed under `--quiet`; without `--quiet` the final "unshelved"
confirmation is printed once the apply succeeds. -/
theorem unshelve_youngest_notice_unconditional (opt : OptState)
    (store : Store) (now : Int) (hl : opt.list = false)
    (ht : opt.targets_file = []) (hok : store.listOk = true)
    (hne : store.shelves ≠ []) :
    ∃ name : String,
      name_of_youngest store = Except.ok name
      ∧ Event.out ("unshelving the youngest change, '" ++ name ++ "'\n")
          ∈ (svn_cl__unshelve [] { opt with quiet := true } store now).1
      ∧ (∀ s : String, Event.confirm s
          ∉ (svn_cl__unshelve [] { opt with quiet := true } store now).1)
      ∧ (store.applyOk = true →
          Event.confirm ("unshelved '" ++ name ++ "'\n")
            ∈ (svn_cl__unshelve [] { opt with quiet := false } store now).1) := by
  obtain ⟨item, _, _, hmain, _⟩ := youngest_spec store hok hne
  refine ⟨stripDotPatch item.1, hmain, ?_, ?_, ?_⟩
  · cases ha : store.applyOk <;>
      simp [svn_cl__unshelve, hl, hmain, unshelve_apply,
        args_to_target_array, ht, ha]
  · intro s
    cases ha : store.applyOk <;>
      simp [svn_cl__unshelve, hl, hmain, unshelve_apply,
        args_to_target_array, ht, ha]
  · intro ha
    simp [svn_cl__unshelve, hl, hmain, unshelve_apply,
      args_to_target_array, ht, ha]

/-- C10 witness: on the two-shelf store with plain options, the youngest
is resolved, the notice appears under quiet, no confirmation appears
under quiet, and the confirmation appears without quiet. -/
theorem unshelve_youngest_notice_unconditional_witness :
    plainOpt.list = false ∧ plainOpt.targets_file = []
    ∧ sampleStore.listOk = true ∧ sampleStore.shelves ≠ []
    ∧ ∃ name : String,
        name_of_youngest sampleStore = Except.ok name
        ∧ Event.out ("unshelving the youngest change, '" ++ name ++ "'\n")
            ∈ (svn_cl__unshelve [] { plainOpt with quiet := true }
                sampleStore 0).1
        ∧ (∀ s : String, Event.confirm s
            ∉ (svn_cl__unshelve [] { plainOpt with quiet := true }
                sampleStore 0).1)
        ∧ (sampleStore.applyOk = true →
            Event.confirm ("unshelved '" ++ name ++ "'\n")
              ∈ (svn_cl__unshelve [] { plainOpt with quiet := false }
                  sampleStore 0).1) :=
  ⟨rfl, rfl, rfl, by simp [sampleStore],
    unshelve_youngest_notice_unconditional plainOpt sampleStore 0 rfl rfl rfl
      (by simp [sampleStore])⟩

theorem filter_flatMap_events (p : Event → Bool)
    (f : (String × PatchInfo) → List Event) :
    ∀ l : List (String × PatchInfo),
      List.filter p (l.flatMap f) = l.flatMap (fun x => List.filter p (f x))
  | [] => rfl
  | x :: xs => by
      simp only [List.flatMap_cons, List.filter_append]
      rw [filter_flatMap_events p f xs]

theorem shelves_list_run_outcome (store : Store) (d : Bool) (now : Int) :
    (shelves_list_run store d now).2 = (shelves_list_run store true now).2 := by
  unfold shelves_list_run
  cases h : list_sorted_by_date store <;> simp

theorem shelves_list_run_filter (store : Store) (now : Int) :
    (shelves_list_run store false now).1
      = List.filter (fun e => !e.isSuppressed)
          ((shelves_list_run store true now).1) := by
  unfold shelves_list_run
  cases h : list_sorted_by_date store with
  | error e => simp [Event.isSuppressed]
  | ok l =>
    simp only [List.filter_cons]
    rw [filter_flatMap_events]
    simp [Event.isSuppressed]

theorem shelves_list_run_store_events (store : Store) (d : Bool) (now : Int) :
    List.filter Event.isStore (shelves_list_run store d now).1
      = [Event.storeList] := by
  unfold shelves_list_run
  cases h : list_sorted_by_date store with
  | error e => simp [Event.isStore]
  | ok l =>
    simp only [List.filter_cons]
    rw [filter_flatMap_events]
    cases d <;> simp [Event.isStore]

theorem store_not_suppressed (e : Event) :
    (Event.isStore e && !Event.isSuppressed e) = Event.isStore e := by
  cases e <;> rfl

theorem filter_store_keep (l : List Event) :
    List.filter Event.isStore (List.filter (fun e => !e.isSuppressed) l)
      = List.filter Event.isStore l := by
  rw [List.filter_filter]
  exact List.filter_congr fun e _ => store_not_suppressed e

theorem shelve_quiet_mk (args : List String) (fl fr fd fk : Bool)
    (fdep : Depth) (fch ftf : List String) (store : Store) (now : Int) :
    ((svn_cl__shelve args ⟨true, fl, fr, fd, fk, fdep, fch, ftf⟩ store now).1
      = List.filter (fun e => !e.isSuppressed)
          ((svn_cl__shelve args ⟨false, fl, fr, fd, fk, fdep, fch, ftf⟩
              store now).1))
    ∧ ((svn_cl__shelve args ⟨true, fl, fr, fd, fk, fdep, fch, ftf⟩
          store now).2
      = (svn_cl__shelve args ⟨false, fl, fr, fd, fk, fdep, fch, ftf⟩
          store now).2) := by
  cases fl with
  | true =>
    cases hargs : args.isEmpty with
    | true =>
      constructor
      · simpa [svn_cl__shelve, hargs] using shelves_list_run_filter store now
      · simpa [svn_cl__shelve, hargs] using
          shelves_list_run_outcome store false now
    | false =>
      constructor <;> simp [svn_cl__shelve, hargs]
  | false =>
    cases args with
    | nil => constructor <;> simp [svn_cl__shelve]
    | cons name rest =>
      cases fr with
      | true =>
        cases hr : rest.isEmpty with
        | true =>
          cases hd : store.deleteOk with
          | true =>
            constructor <;> simp [svn_cl__shelve, hr, hd, Event.isSuppressed]
          | false =>
            constructor <;> simp [svn_cl__shelve, hr, hd, Event.isSuppressed]
        | false => constructor <;> simp [svn_cl__shelve, hr]
      | false =>
        simp only [svn_cl__shelve, shelve_create, args_to_target_array,
          Bool.false_eq_true, if_false]
        split_ifs <;> simp [Event.isSuppressed]

theorem unshelve_quiet_mk (args : List String) (fl fr fd fk : Bool)
    (fdep : Depth) (fch ftf : List String) (store : Store) (now : Int) :
    ((svn_cl__unshelve args ⟨true, fl, fr, fd, fk, fdep, fch, ftf⟩
          store now).1
      = List.filter (fun e => !e.isSuppressed)
          ((svn_cl__unshelve args ⟨false, fl, fr, fd, fk, fdep, fch, ftf⟩
              store now).1))
    ∧ ((svn_cl__unshelve args ⟨true, fl, fr, fd, fk, fdep, fch, ftf⟩
          store now).2
      = (svn_cl__unshelve args ⟨false, fl, fr, fd, fk, fdep, fch, ftf⟩
          store now).2) := by
  cases fl with
  | true =>
    cases hargs : args.isEmpty with
    | true =>
      constructor
      · simpa [svn_cl__unshelve, hargs] using shelves_list_run_filter store now
      · simpa [svn_cl__unshelve, hargs] using
          shelves_list_run_outcome store false now
    | false =>
      constructor <;> simp [svn_cl__unshelve, hargs]
  | false =>
    cases args with
    | cons name rest =>
      simp only [svn_cl__unshelve, unshelve_apply, args_to_target_array,
        Bool.false_eq_true, if_false]
      split_ifs <;> simp [Event.isSuppressed]
    | nil =>
      cases hy : name_of_youngest store with
      | error e => constructor <;> simp [svn_cl__unshelve, hy, Event.isSuppressed]
      | ok nm =>
        simp only [svn_cl__unshelve, hy, unshelve_apply, args_to_target_array,
          Bool.false_eq_true, if_false]
        split_ifs <;> simp [Event.isSuppressed]

/-- C9: for every input (arguments, options, store state), running
`svn_cl__shelve` (including its `--remove` deletion branch) or
`svn_cl__unshelve` with quiet set succeeds exactly when the same
invocation with quiet unset does, the two runs make identical calls to
the external store with identical arguments, and the quiet run's events
are exactly the verbose run's events with the suppressible output
(confirmation lines and the diff-statistics block) removed. -/
theorem quiet_mode_invariance (args : List String) (opt : OptState)
    (store : Store) (now : Int) :
    ((svn_cl__shelve args { opt with quiet := true } store now).2
        = (svn_cl__shelve args { opt with quiet := false } store now).2
      ∧ List.filter Event.isStore
            (svn_cl__shelve args { opt with quiet := true } store now).1
          = List.filter Event.isStore
              (svn_cl__shelve args { opt with quiet := false } store now).1
      ∧ (svn_cl__shelve args { opt with quiet := true } store now).1
          = List.filter (fun e => !e.isSuppressed)
              ((svn_cl__shelve args { opt with quiet := false } store now).1))
    ∧ ((svn_cl__unshelve args { opt with quiet := true } store now).2
        = (svn_cl__unshelve args { opt with quiet := false } store now).2
      ∧ List.filter Event.isStore
            (svn_cl__unshelve args { opt with quiet := true } store now).1
          = List.filter Event.isStore
              (svn_cl__unshelve args { opt with quiet := false } store now).1
      ∧ (svn_cl__unshelve args { opt with quiet := true } store now).1
          = List.filter (fun e => !e.isSuppressed)
              ((svn_cl__unshelve args { opt with quiet := false }
                  store now).1)) := by
  obtain ⟨q, fl, fr, fd, fk, fdep, fch, ftf⟩ := opt
  have hs := shelve_quiet_mk args fl fr fd fk fdep fch ftf store now
  have hu := unshelve_quiet_mk args fl fr fd fk fdep fch ftf store now
  refine ⟨⟨hs.2, ?_, hs.1⟩, hu.2, ?_, hu.1⟩
  · show List.filter Event.isStore
        (svn_cl__shelve args ⟨true, fl, fr, fd, fk, fdep, fch, ftf⟩
          store now).1
      = List.filter Event.isStore
        (svn_cl__shelve args ⟨false, fl, fr, fd, fk, fdep, fch, ftf⟩
          store now).1
    rw [hs.1, filter_store_keep]
  · show List.filter Event.isStore
        (svn_cl__unshelve args ⟨true, fl, fr, fd, fk, fdep, fch, ftf⟩
          store now).1
      = List.filter Event.isStore
        (svn_cl__unshelve args ⟨false, fl, fr, fd, fk, fdep, fch, ftf⟩
          store now).1
    rw [hu.1, filter_store_keep]
